import Mathlib

/-!
Verification of the PySurfParcel repository: a shallow embedding of
`pysurfparcel/reoncall/layout/layout.py`,
`pysurfparcel/interfaces/freesurfer/preprocess.py` and the
`pysurfparcel/procedures/atlas2subject` modules, with theorems about the
claims of the specification.
-/

namespace PySurfParcel

/-- A filesystem path, as its list of components (the last one is the
filename, `pathlib.Path.name`). -/
abbrev FsPath := List String

/-- `pathlib.Path.name`: the final component of a path. -/
def pathName (p : FsPath) : String := p.getLastD ""

/-- `str(path)`: the path rendered with `/` separators. -/
def pathStr (p : FsPath) : String := String.intercalate "/" p

/-- Python's `str.startswith`, modelled as character-list prefixing. -/
def strStartsWith (s pre : String) : Bool := pre.toList.isPrefixOf s.toList

/-- A Python value stored in `Layout.outputs`: `None`, a `Path`, or a
(nested) `dict`. -/
inductive PyValue where
  | none
  | path (p : FsPath)
  | dict (entries : List (String × PyValue))

/-- Python dict assignment `d[k] = v` on an association list with unique
keys: replace in place, or append at the end. -/
def dictSet : List (String × α) → String → α → List (String × α)
  | [], k, v => [(k, v)]
  | (a, b) :: tl, k, v =>
    if a == k then (k, v) :: tl else (a, b) :: dictSet tl k v

/-- The body of the `for result in results` loop in
`Layout.collect_outputs` (layout.py lines 67-71): record the file under
`"lh"` when its filename starts with `lh`, else under `"rh"` when it
starts with `rh`, each assignment overwriting the previous one for the
same key. -/
def collectHemisStep (hemis : List (String × PyValue)) (result : FsPath) :
    List (String × PyValue) :=
  if strStartsWith (pathName result) "lh" then
    dictSet hemis "lh" (PyValue.path result)
  else if strStartsWith (pathName result) "rh" then
    dictSet hemis "rh" (PyValue.path result)
  else hemis

/-- The `hemis` dict built by `Layout.collect_outputs` (layout.py lines
66-71) from the matched paths. -/
def collectHemis (results : List FsPath) : List (String × PyValue) :=
  results.foldl collectHemisStep []

/-- The body of the `for output_name, output_path in output_spec.items()`
loop of `Layout.collect_outputs` (layout.py lines 60-72): set the entry
to `None`, then overwrite it with the single match, or with the
per-hemisphere dict when there are several matches. -/
def collectStep (glob : String → List FsPath)
    (outputs : List (String × PyValue)) (kv : String × String) :
    List (String × PyValue) :=
  let results := glob kv.2
  let outputs := dictSet outputs kv.1 PyValue.none
  if results.length = 1 then
    dictSet outputs kv.1 (PyValue.path (results.headD []))
  else if results.length > 1 then
    dictSet outputs kv.1 (PyValue.dict (collectHemis results))
  else outputs

/-- `Layout.collect_outputs` (layout.py lines 45-73).  The filesystem is
abstracted by `glob`, which maps a glob pattern to the list of matching
paths under `subject_dir`; `output_spec` is the `OUTPUTS` dict. -/
def collectOutputs (glob : String → List FsPath)
    (output_spec : List (String × String)) : List (String × PyValue) :=
  output_spec.foldl (collectStep glob) []

/-- The value `collect_outputs` stores for a single entry of the output
spec (one iteration of its outer loop). -/
def collectValue (glob : String → List FsPath) (pattern : String) : PyValue :=
  let results := glob pattern
  if results.length = 1 then PyValue.path (results.headD [])
  else if results.length > 1 then PyValue.dict (collectHemis results)
  else PyValue.none

/-- The shape invariant of a stored output value relative to the list of
paths the glob matched: `None` records absence, a single path was
matched, and a per-hemisphere map holds matched paths under the keys
`"lh"`/`"rh"` only. -/
def shapeMatched (results : List FsPath) : PyValue → Prop
  | PyValue.none => results = []
  | PyValue.path p => p ∈ results
  | PyValue.dict entries =>
      ∀ e ∈ entries,
        (e.1 = "lh" ∨ e.1 = "rh") ∧
        ∃ p, e.2 = PyValue.path p ∧ p ∈ results

/-! ## Command-line construction (interfaces/freesurfer/preprocess.py)

The interface classes in `preprocess.py` declare their command lines
through nipype trait specs (`argstr`, `position`, `name_source`).
Modelled from the spec: the assembly of the declared arguments into a
command string is performed by nipype's `CommandLine._parse_inputs`,
which is not part of this repository; it formats every defined input
that has an `argstr` (inputs with a `name_source` receive a name
generated from their source input and template), iterates the inputs
sorted by trait name, places inputs with a non-negative `position`
first (sorted by position), then the unpositioned inputs, then the
inputs with a negative `position` (sorted by position), and joins the
command name and the formatted arguments with single spaces. -/

/-- One formatted command-line argument: the declaring trait's name, its
declared `position`, and the formatted `argstr` text. -/
structure FormattedArg where
  name : String
  position : Option Int
  arg : String
deriving DecidableEq, Repr

/-- Lexicographic comparison of character lists by code point. -/
def charListLe : List Char → List Char → Bool
  | [], _ => true
  | _ :: _, [] => false
  | a :: as, b :: bs =>
    if a.toNat < b.toNat then true
    else if b.toNat < a.toNat then false
    else charListLe as bs

/-- Python string `<=`, used by `sorted` on trait names. -/
def strLe (a b : String) : Bool := charListLe a.toList b.toList

/-- Insert into a list sorted by trait name. -/
def insertByName (x : FormattedArg) : List FormattedArg → List FormattedArg
  | [] => [x]
  | y :: ys => if strLe x.name y.name then x :: y :: ys else y :: insertByName x ys

/-- Sort formatted arguments by trait name (nipype iterates
`sorted(self.inputs.traits(...).items())`). -/
def sortByName (l : List FormattedArg) : List FormattedArg :=
  l.foldr insertByName []

/-- Insert into a list sorted by declared position. -/
def insertByPos (x : FormattedArg) : List FormattedArg → List FormattedArg
  | [] => [x]
  | y :: ys =>
    if x.position.getD 0 ≤ y.position.getD 0 then x :: y :: ys
    else y :: insertByPos x ys

/-- Sort formatted arguments by declared position. -/
def sortByPos (l : List FormattedArg) : List FormattedArg :=
  l.foldr insertByPos []

/-- Whether an argument has a non-negative declared position. -/
def hasInitialPos (a : FormattedArg) : Bool :=
  match a.position with
  | some p => decide (0 ≤ p)
  | Option.none => false

/-- Whether an argument has a negative declared position. -/
def hasFinalPos (a : FormattedArg) : Bool :=
  match a.position with
  | some p => decide (p < 0)
  | Option.none => false

/-- nipype `CommandLine._parse_inputs`: the ordered formatted argument
list (see the section comment above). -/
def parseInputs (args : List FormattedArg) : List String :=
  let sorted := sortByName args
  let initial := sortByPos (sorted.filter hasInitialPos)
  let middle := sorted.filter (fun a => a.position.isNone)
  let final := sortByPos (sorted.filter hasFinalPos)
  (initial ++ middle ++ final).map (fun a => a.arg)

/-- nipype `CommandLine.cmdline`: command name and formatted arguments
joined by spaces. -/
def cmdline (cmd : String) (args : List FormattedArg) : String :=
  String.intercalate " " (cmd :: parseInputs args)

/-- A formatted argument for an optional input: present exactly when the
input is defined. -/
def optArg (name : String) (position : Option Int) (value : Option String)
    (fmt : String → String) : List FormattedArg :=
  match value with
  | some v => [⟨name, position, fmt v⟩]
  | Option.none => []

/-- The inputs of `MRIsCALabel` (`MRIsCALabelInputSpec`, preprocess.py
lines 15-84).  `Option` fields are undefined when `none`; `subjects_dir`
comes from the nipype `FSTraitedSpec` base class and has no `argstr`. -/
structure MRIsCALabelInputs where
  subject_id : String
  hemisphere : String
  canonsurf : String
  classifier : String
  smoothwm : Option String
  curv : Option String
  sulc : Option String
  out_file : Option String
  label : Option String
  aseg : Option String
  seed : Option Int
  copy_inputs : Bool
  subjects_dir : FsPath
deriving DecidableEq, Repr

/-- The effective `out_file` of `MRIsCALabel`: the assigned value, or the
name generated from `name_source=["hemisphere"]` with
`name_template="%s.aparc.annot"`. -/
def mrisCALabelOutFile (i : MRIsCALabelInputs) : String :=
  match i.out_file with
  | some f => f
  | Option.none => i.hemisphere ++ ".aparc.annot"

/-- The formatted arguments declared by `MRIsCALabelInputSpec`:
`subject_id`/`hemisphere`/`canonsurf`/`classifier`/`out_file` are
positional (-5..-1, argstr `%s`); `label` (`-l %s`), `aseg` (`-aseg %s`)
and `seed` (`-seed %d`) are optional; `smoothwm`, `curv`, `sulc` and
`copy_inputs` have no `argstr`. -/
def mrisCALabelArgs (i : MRIsCALabelInputs) : List FormattedArg :=
  [⟨"subject_id", some (-5), i.subject_id⟩,
   ⟨"hemisphere", some (-4), i.hemisphere⟩,
   ⟨"canonsurf", some (-3), i.canonsurf⟩,
   ⟨"classifier", some (-2), i.classifier⟩,
   ⟨"out_file", some (-1), mrisCALabelOutFile i⟩]
  ++ optArg "label" Option.none i.label (fun v => "-l " ++ v)
  ++ optArg "aseg" Option.none i.aseg (fun v => "-aseg " ++ v)
  ++ (match i.seed with
      | some n => [⟨"seed", Option.none, "-seed " ++ toString n⟩]
      | Option.none => [])

/-- `MRIsCALabel.cmdline` (`_cmd = "mris_ca_label"`). -/
def mrisCALabelCmdline (i : MRIsCALabelInputs) : String :=
  cmdline "mris_ca_label" (mrisCALabelArgs i)

/-- The inputs of `MRIsAnatomicalStats` (`MRIsAnatomicalStatsInputSpec`,
preprocess.py lines 168-217).  `tabulr_output` has `usedefault=True`
with default value `True`. -/
structure MRIsAnatomicalStatsInputs where
  subject_id : String
  hemisphere : String
  mgz : Option Bool
  cortex : String
  annot : String
  tabulr_output : Bool
  out_file : Option String
  subjects_dir : FsPath
deriving DecidableEq, Repr

/-- The effective `out_file` of `MRIsAnatomicalStats`: assigned, or
generated from `name_source=["hemisphere"]` with
`name_template="%s.aparc.stats"`. -/
def mrisAnatomicalStatsOutFile (i : MRIsAnatomicalStatsInputs) : String :=
  match i.out_file with
  | some f => f
  | Option.none => i.hemisphere ++ ".aparc.stats"

/-- The formatted arguments declared by `MRIsAnatomicalStatsInputSpec`:
`subject_id` (position -2) and `hemisphere` (position -1) are
positional; `mgz` (`-mgz`), `cortex` (`-cortex %s`), `annot` (`-a %s`),
`tabulr_output` (`-b`) and `out_file` (`-f %s`, name-generated) are
unpositioned. -/
def mrisAnatomicalStatsArgs (i : MRIsAnatomicalStatsInputs) : List FormattedArg :=
  [⟨"subject_id", some (-2), i.subject_id⟩,
   ⟨"hemisphere", some (-1), i.hemisphere⟩]
  ++ (match i.mgz with
      | some true => [⟨"mgz", Option.none, "-mgz"⟩]
      | _ => [])
  ++ [⟨"cortex", Option.none, "-cortex " ++ i.cortex⟩,
      ⟨"annot", Option.none, "-a " ++ i.annot⟩]
  ++ (if i.tabulr_output then [⟨"tabulr_output", Option.none, "-b"⟩] else [])
  ++ [⟨"out_file", Option.none, "-f " ++ mrisAnatomicalStatsOutFile i⟩]

/-- `MRIsAnatomicalStats.cmdline` (`_cmd = "mris_anatomical_stats"`). -/
def mrisAnatomicalStatsCmdline (i : MRIsAnatomicalStatsInputs) : String :=
  cmdline "mris_anatomical_stats" (mrisAnatomicalStatsArgs i)

/-- The inputs of `MRISegStats` (`MRISegStatsInputSpec`, preprocess.py
lines 273-306).  `pvol` embeds the source's `partial_volume` input. -/
structure MRISegStatsInputs where
  segmentation : String
  ctab : String
  excludeid : Option (List Int)
  out_file : String
  pvol : Option String
  subjects_dir : FsPath
deriving DecidableEq, Repr

/-- The formatted arguments declared by `MRISegStatsInputSpec`:
`segmentation` (`--seg %s`), `ctab` (`--ctab %s`), `excludeid`
(`--excludeid %s`), `out_file` (`--sum %s`) and the partial-volume
input (`--pv %s`), all unpositioned. -/
def mriSegStatsArgs (i : MRISegStatsInputs) : List FormattedArg :=
  [⟨"segmentation", Option.none, "--seg " ++ i.segmentation⟩,
   ⟨"ctab", Option.none, "--ctab " ++ i.ctab⟩]
  ++ (match i.excludeid with
      | some ids =>
        [⟨"excludeid", Option.none,
          "--excludeid " ++ String.intercalate " " (ids.map toString)⟩]
      | Option.none => [])
  ++ [⟨"out_file", Option.none, "--sum " ++ i.out_file⟩]
  ++ optArg "partial_volume" Option.none i.pvol (fun v => "--pv " ++ v)

/-- `MRISegStats.cmdline` (`_cmd = "mri_segstats"`). -/
def mriSegStatsCmdline (i : MRISegStatsInputs) : String :=
  cmdline "mri_segstats" (mriSegStatsArgs i)

/-! ## The `run` overrides and their filesystem effects -/

/-- The directories that exist on the abstract filesystem. -/
structure Fs where
  dirs : List FsPath
deriving DecidableEq, Repr

/-- `os.path.isdir`. -/
def Fs.isDir (fs : Fs) (p : FsPath) : Bool := fs.dirs.contains p

/-- The proper and improper ancestor directories of a path: every
non-empty component prefix. -/
def ancestorPaths (p : FsPath) : List FsPath :=
  (List.range p.length).map (fun n => p.take (n + 1))

/-- `os.makedirs`: create the directory and every missing parent. -/
def makedirs (fs : Fs) (p : FsPath) : Fs :=
  ⟨ancestorPaths p ++ fs.dirs⟩

/-- A recorded call to nipype's `copy2subjdir` helper: the file input to
copy (`none` when the input is undefined, in which case the helper does
nothing), the destination folder under the subject directory, and the
destination basename (`none` keeps the original basename). -/
structure CopyOp where
  file : Option String
  folder : String
  basename : Option String
deriving DecidableEq, Repr

/-- The `<subjects_dir>/<subject_id>/label` directory required by
`MRIsCALabel.run` and `MRIsAnatomicalStats.run`. -/
def labelDirOf (subjects_dir : FsPath) (subject_id : String) : FsPath :=
  subjects_dir ++ [subject_id, "label"]

/-- The result of running an interface wrapper: the (possibly mutated)
inputs, the filesystem after the pre-delegation effects, the recorded
`copy2subjdir` calls, and the outcome returned by the base class
`run`. -/
structure RunResult (α : Type) where
  inputs : MRIsCALabelInputs
  fs : Fs
  copies : List CopyOp
  outcome : α

/-- `MRIsCALabel.run` (preprocess.py lines 122-154): when `copy_inputs`
is set, point `subjects_dir` at the working directory and copy
`canonsurf`, `smoothwm`, `curv` and `sulc` into the subject's `surf`
folder (the last three renamed to the hemisphere-prefixed basenames);
then create the `label` directory if it is missing and delegate to the
base class `run`, whose outcome is returned unchanged. -/
def mrisCALabelRun (cwd : FsPath) (fs : Fs) (i : MRIsCALabelInputs)
    (superRun : MRIsCALabelInputs → Fs → α) : RunResult α :=
  let i := if i.copy_inputs then { i with subjects_dir := cwd } else i
  let copies :=
    if i.copy_inputs then
      [⟨some i.canonsurf, "surf", Option.none⟩,
       ⟨i.smoothwm, "surf", some (i.hemisphere ++ ".smoothwm")⟩,
       ⟨i.curv, "surf", some (i.hemisphere ++ ".curv")⟩,
       ⟨i.sulc, "surf", some (i.hemisphere ++ ".sulc")⟩]
    else []
  let labelDir := labelDirOf i.subjects_dir i.subject_id
  let fs := if fs.isDir labelDir then fs else makedirs fs labelDir
  ⟨i, fs, copies, superRun i fs⟩

/-- The result of `MRIsAnatomicalStats.run`: the (unchanged) inputs, the
filesystem after the pre-delegation effects and the outcome of the base
class `run`. -/
structure StatsRunResult (α : Type) where
  inputs : MRIsAnatomicalStatsInputs
  fs : Fs
  outcome : α

/-- `MRIsAnatomicalStats.run` (preprocess.py lines 251-259): create the
`label` directory if it is missing, then delegate to the base class
`run`, whose outcome is returned unchanged. -/
def mrisAnatomicalStatsRun (fs : Fs) (i : MRIsAnatomicalStatsInputs)
    (superRun : MRIsAnatomicalStatsInputs → Fs → α) : StatsRunResult α :=
  let labelDir := labelDirOf i.subjects_dir i.subject_id
  let fs := if fs.isDir labelDir then fs else makedirs fs labelDir
  ⟨i, fs, superRun i fs⟩

/-- The directory precondition established by `MRIsCALabel.run` before
delegating: the `label` directory of its (possibly updated) inputs
exists, and when it did not exist on the initial filesystem, it was
created together with every missing parent directory. -/
def runEnsuresLabelDir (r : RunResult α) (fs0 : Fs) : Prop :=
  labelDirOf r.inputs.subjects_dir r.inputs.subject_id ∈ r.fs.dirs ∧
  (fs0.isDir (labelDirOf r.inputs.subjects_dir r.inputs.subject_id) = false →
    ∀ q ∈ ancestorPaths (labelDirOf r.inputs.subjects_dir r.inputs.subject_id),
      q ∈ r.fs.dirs)

/-- The directory precondition established by `MRIsAnatomicalStats.run`
before delegating. -/
def statsRunEnsuresLabelDir (r : StatsRunResult α) (fs0 : Fs) : Prop :=
  labelDirOf r.inputs.subjects_dir r.inputs.subject_id ∈ r.fs.dirs ∧
  (fs0.isDir (labelDirOf r.inputs.subjects_dir r.inputs.subject_id) = false →
    ∀ q ∈ ancestorPaths (labelDirOf r.inputs.subjects_dir r.inputs.subject_id),
      q ∈ r.fs.dirs)

/-! ## The atlas2subject procedures -/

/-- The errors raised by the repository's own code. -/
inductive RepoError where
  | fileNotFoundError (msg : String)
  | valueError (msg : String)
  | notImplementedError (msg : String)
deriving DecidableEq, Repr

/-- The state of a constructed `Layout` object: `subject_dir`,
`subject_id` (its final component) and the `outputs` dict. -/
structure LayoutState where
  subject_dir : FsPath
  subject_id : String
  outputs : List (String × PyValue)

/-- `Layout.__init__` (layout.py lines 13-25), metadata parsing aside:
record the subject directory, take `subject_id` from its name, and glob
the output spec once into `outputs`. -/
def layoutInit (glob : String → List FsPath)
    (output_spec : List (String × String)) (subject_dir : FsPath) : LayoutState :=
  ⟨subject_dir, pathName subject_dir, collectOutputs glob output_spec⟩

/-- A parcellation (`qsipost` `Atlas`) as its name and its dynamic
attributes (attribute name to file path string); `hasattr` is key
membership. -/
structure Parcellation where
  name : String
  attrs : List (String × String)

/-- Python attribute access, defaulting for attributes that are never
read without a prior `hasattr` validation. -/
def Parcellation.getAttr (p : Parcellation) (a : String) : String :=
  (p.attrs.lookup a).getD ""

/-- Python `hasattr`. -/
def Parcellation.hasAttr (p : Parcellation) (a : String) : Bool :=
  (p.attrs.lookup a).isSome

/-- The test `self.layout.outputs.get(key) is None` in
`validate_required_inputs`: true when the key is missing or stores
`None`. -/
def outputsGetIsNone (outputs : List (String × PyValue)) (key : String) : Bool :=
  match outputs.lookup key with
  | Option.none => true
  | some PyValue.none => true
  | some _ => false

/-- The first loop of `RegisterParcellation.validate_required_inputs`
(register_parcellation.py lines 31-35): raise `FileNotFoundError` at the
first required recon-all output that is missing. -/
def validateLayoutKeys (outputs : List (String × PyValue)) :
    List String → Except RepoError Unit
  | [] => Except.ok ()
  | key :: keys =>
    if outputsGetIsNone outputs key then
      Except.error (RepoError.fileNotFoundError
        ("Missing required recon-all output: " ++ key))
    else validateLayoutKeys outputs keys

/-- The second loop of `RegisterParcellation.validate_required_inputs`
(register_parcellation.py lines 36-40): raise `FileNotFoundError` at the
first required parcellation attribute that is absent. -/
def validateParcellationKeys (parc : Parcellation) :
    List String → Except RepoError Unit
  | [] => Except.ok ()
  | key :: keys =>
    if parc.hasAttr key then validateParcellationKeys parc keys
    else
      Except.error (RepoError.fileNotFoundError
        ("Missing required parcellation file: " ++ key))

/-- `RegisterParcellation.validate_required_inputs`: layout keys first,
then parcellation keys. -/
def validateRequiredInputs (reqLayout reqParc : List String)
    (layout : LayoutState) (parc : Parcellation) : Except RepoError Unit :=
  (validateLayoutKeys layout.outputs reqLayout).bind
    (fun _ => validateParcellationKeys parc reqParc)

/-- `RegisterParcellation.__init__`: store the fields and validate; the
construction succeeds or raises whatever validation raises, and invokes
no external tool. -/
def registerParcellationInit (reqLayout reqParc : List String)
    (layout : LayoutState) (parc : Parcellation) : Except RepoError Unit :=
  validateRequiredInputs reqLayout reqParc layout parc

/-- `RegisterCorticalParcellation` construction, with its
`REQUIRED_LAYOUT_KEYS` and `REQUIRED_PARCELLATION_KEYS`. -/
def registerCorticalParcellationInit (layout : LayoutState)
    (parc : Parcellation) : Except RepoError Unit :=
  registerParcellationInit ["cortex_label", "surfreg"]
    ["rh_gcs", "lh_gcs", "lut"] layout parc

/-- `RegisterSubCorticalParcellation` construction, with its
`REQUIRED_LAYOUT_KEYS` and `REQUIRED_PARCELLATION_KEYS`. -/
def registerSubCorticalParcellationInit (layout : LayoutState)
    (parc : Parcellation) : Except RepoError Unit :=
  registerParcellationInit ["brain", "talairach_xfm", "norm"]
    ["subcortex_gcs", "lut"] layout parc

/-- `str(self.layout.outputs[key][hemi])` for a per-hemisphere output
(defaulting where Python would raise a dynamic error; the procedures
only reach these reads on validated layouts). -/
def outputsHemiStr (outputs : List (String × PyValue)) (key hemi : String) : String :=
  match outputs.lookup key with
  | some (PyValue.dict entries) =>
    match entries.lookup hemi with
    | some (PyValue.path p) => pathStr p
    | _ => ""
  | _ => ""

/-- `str(self.layout.outputs[key])` for a single-path output. -/
def outputsPathStr (outputs : List (String × PyValue)) (key : String) : String :=
  match outputs.lookup key with
  | some (PyValue.path p) => pathStr p
  | _ => ""

/-- The inputs of nipype's volume `CALabel` interface as set by
`RegisterSubCorticalParcellation.map_to_subject` (subcortical.py lines
70-78). -/
structure CALabelVolInputs where
  in_file : String
  template : String
  transform : String
  out_file : String
  subjects_dir : String
deriving DecidableEq, Repr

/-- An external-tool invocation made by a procedure. -/
inductive ExternalCall where
  | mrisCALabel (i : MRIsCALabelInputs)
  | mriCALabel (i : CALabelVolInputs)
  | mrisAnatomicalStats (i : MRIsAnatomicalStatsInputs)
  | mriSegStats (i : MRISegStatsInputs)
deriving DecidableEq, Repr

/-- The annotation path computed by
`RegisterCorticalParcellation.map_to_hemisphere`:
`subject_dir / "label" / f"{hemi}.{name}.annot"`. -/
def corticalAnnotPath (layout : LayoutState) (parc : Parcellation)
    (hemi : String) : FsPath :=
  layout.subject_dir ++ ["label", hemi ++ "." ++ parc.name ++ ".annot"]

/-- The `if`/`elif`/`else` choosing the classifier file in
`map_to_hemisphere` (cortical.py lines 47-52); the `else` branch raises
`ValueError` before any path is built or tool invoked. -/
def mapToHemisphereGcs (parc : Parcellation) (hemi : String) :
    Except RepoError String :=
  if hemi = "lh" then Except.ok (parc.getAttr "lh_gcs")
  else if hemi = "rh" then Except.ok (parc.getAttr "rh_gcs")
  else Except.error (RepoError.valueError ("Invalid hemisphere: " ++ hemi))

/-- `RegisterCorticalParcellation.map_to_hemisphere` (cortical.py lines
31-73).  `ex` abstracts `Path.exists`; the returned list records the
external `mris_ca_label` invocations (empty when the output exists and
`force` is not set). -/
def mapToHemisphere (layout : LayoutState) (parc : Parcellation) (seed : Int)
    (ex : FsPath → Bool) (hemi : String) (force : Bool) :
    Except RepoError (FsPath × List ExternalCall) :=
  (mapToHemisphereGcs parc hemi).bind (fun gcs =>
    let out_file := corticalAnnotPath layout parc hemi
    if !(ex out_file) || force then
      Except.ok (out_file,
        [ExternalCall.mrisCALabel
          { subject_id := layout.subject_id
            hemisphere := hemi
            canonsurf := outputsHemiStr layout.outputs "surfreg" hemi
            classifier := gcs
            smoothwm := Option.none
            curv := Option.none
            sulc := Option.none
            out_file := some (pathStr out_file)
            label := some (outputsHemiStr layout.outputs "cortex_label" hemi)
            aseg := Option.none
            seed := some seed
            copy_inputs := false
            subjects_dir := layout.subject_dir.dropLast }])
    else Except.ok (out_file, []))

/-- The statistics path computed by
`RegisterCorticalParcellation.calculate_parcellation_statistics`:
`subject_dir / "stats" / f"{hemi}.{name}.stats"`. -/
def corticalStatsPath (layout : LayoutState) (parc : Parcellation)
    (hemi : String) : FsPath :=
  layout.subject_dir ++ ["stats", hemi ++ "." ++ parc.name ++ ".stats"]

/-- The region-wise csv path computed by
`RegisterCorticalParcellation.convert_stats_to_dataframe`. -/
def corticalRegionalCsvPath (layout : LayoutState) (parc : Parcellation)
    (hemi : String) : FsPath :=
  layout.subject_dir ++ ["stats", hemi ++ "." ++ parc.name ++ ".roi_stats.csv"]

/-- The global csv path computed by
`RegisterCorticalParcellation.convert_stats_to_dataframe`. -/
def corticalGlobalCsvPath (layout : LayoutState) (parc : Parcellation)
    (hemi : String) : FsPath :=
  layout.subject_dir ++ ["stats", hemi ++ "." ++ parc.name ++ ".global_stats.csv"]

/-- The segmentation path computed by
`RegisterSubCorticalParcellation.map_to_subject`:
`subject_dir / "mri" / f"subcortex.{name}.mgz"`. -/
def subcortexSegPath (layout : LayoutState) (parc : Parcellation) : FsPath :=
  layout.subject_dir ++ ["mri", "subcortex." ++ parc.name ++ ".mgz"]

/-- The statistics path computed by
`RegisterSubCorticalParcellation.calculate_parcellation_statistics`. -/
def subcortexStatsPath (layout : LayoutState) (parc : Parcellation) : FsPath :=
  layout.subject_dir ++ ["stats", "subcortex." ++ parc.name ++ ".stats"]

/-- The region-wise csv path computed by
`RegisterSubCorticalParcellation.convert_stats_to_dataframe`. -/
def subcortexCsvPath (layout : LayoutState) (parc : Parcellation) : FsPath :=
  layout.subject_dir ++ ["stats", "subcortex." ++ parc.name ++ ".roi_stats.csv"]

/-- `RegisterSubCorticalParcellation.map_to_subject` (subcortical.py
lines 48-79): return the segmentation path, invoking the external
`mri_ca_label` only when the output is missing or `force` is set. -/
def mapToSubject (layout : LayoutState) (parc : Parcellation)
    (ex : FsPath → Bool) (force : Bool) : FsPath × List ExternalCall :=
  let out_file := subcortexSegPath layout parc
  if !(ex out_file) || force then
    (out_file,
      [ExternalCall.mriCALabel
        { in_file := outputsPathStr layout.outputs "brain"
          template := parc.getAttr "subcortex_gcs"
          transform := outputsPathStr layout.outputs "talairach_xfm"
          out_file := pathStr out_file
          subjects_dir := pathStr layout.subject_dir.dropLast }])
  else (out_file, [])

/-- Python `d[k][inner] = v` where `d[k]` holds a dict: update the inner
dict in place. -/
def dictSetInner (d : List (String × PyValue)) (k inner : String)
    (v : PyValue) : List (String × PyValue) :=
  match d.lookup k with
  | some (PyValue.dict entries) => dictSet d k (PyValue.dict (dictSet entries inner v))
  | _ => d

/-- The effect of `RegisterCorticalParcellation.run` (cortical.py lines
154-179) on `Layout.outputs`: initialise the three derived keys to empty
dicts, then for each hemisphere store the annotation path, the
statistics path, and the `{"regional": ..., "global": ...}` dataframe
paths returned by the three methods. -/
def corticalRunOutputs (layout : LayoutState) (parc : Parcellation) :
    List (String × PyValue) :=
  let o := dictSet layout.outputs "cortical_annotation" (PyValue.dict [])
  let o := dictSet o "cortical_stats" (PyValue.dict [])
  let o := dictSet o "cortical_stats_df" (PyValue.dict [])
  ["lh", "rh"].foldl
    (fun o hemi =>
      let o := dictSetInner o "cortical_annotation" hemi
        (PyValue.path (corticalAnnotPath layout parc hemi))
      let o := dictSetInner o "cortical_stats" hemi
        (PyValue.path (corticalStatsPath layout parc hemi))
      dictSetInner o "cortical_stats_df" hemi
        (PyValue.dict
          [("regional", PyValue.path (corticalRegionalCsvPath layout parc hemi)),
           ("global", PyValue.path (corticalGlobalCsvPath layout parc hemi))]))
    o

/-- The effect of `RegisterSubCorticalParcellation.run` (subcortical.py
lines 143-162) on `Layout.outputs`: initialise the three derived keys to
empty dicts, then overwrite them with the segmentation path, the
statistics path, and the `{"regional": ...}` dataframe path. -/
def subcorticalRunOutputs (layout : LayoutState) (parc : Parcellation) :
    List (String × PyValue) :=
  let o := dictSet layout.outputs "subcortex_segmentation" (PyValue.dict [])
  let o := dictSet o "subcortex_stats" (PyValue.dict [])
  let o := dictSet o "subcortex_stats_df" (PyValue.dict [])
  let o := dictSet o "subcortex_segmentation"
    (PyValue.path (subcortexSegPath layout parc))
  let o := dictSet o "subcortex_stats"
    (PyValue.path (subcortexStatsPath layout parc))
  dictSet o "subcortex_stats_df"
    (PyValue.dict [("regional", PyValue.path (subcortexCsvPath layout parc))])

/-! ## Concrete fixtures for witnesses and counterexamples -/

/-- A concrete glob for witnesses: one pattern with two per-hemisphere
matches, one with a single match, everything else absent. -/
def wGlob : String → List FsPath := fun pat =>
  if pat = "surf/*h.sphere.reg" then
    [["surf", "lh.sphere.reg"], ["surf", "rh.sphere.reg"]]
  else if pat = "mri/brain.mgz" then [["mri", "brain.mgz"]]
  else []

/-- A concrete output spec for witnesses. -/
def wSpec : List (String × String) :=
  [("surfreg", "surf/*h.sphere.reg"),
   ("brain", "mri/brain.mgz"),
   ("norm", "mri/norm.mgz")]

/-- A concrete glob whose single pattern matches two files that both
start with `lh`. -/
def cGlob : String → List FsPath := fun _ =>
  [["label", "lh.aparc.annot"], ["label", "lh.extra.annot"]]

/-- A concrete layout for counterexamples and witnesses. -/
def wLayout : LayoutState :=
  ⟨["subjects", "sub-01"], "sub-01",
    [("surfreg", PyValue.dict
       [("lh", PyValue.path ["subjects", "sub-01", "surf", "lh.sphere.reg"]),
        ("rh", PyValue.path ["subjects", "sub-01", "surf", "rh.sphere.reg"])]),
     ("cortex_label", PyValue.dict
       [("lh", PyValue.path ["subjects", "sub-01", "label", "lh.cortex.label"]),
        ("rh", PyValue.path ["subjects", "sub-01", "label", "rh.cortex.label"])]),
     ("brain", PyValue.path ["subjects", "sub-01", "mri", "brain.mgz"]),
     ("talairach_xfm",
       PyValue.path ["subjects", "sub-01", "mri", "transforms", "talairach.xfm"]),
     ("norm", PyValue.path ["subjects", "sub-01", "mri", "norm.mgz"])]⟩

/-- A concrete parcellation for counterexamples and witnesses. -/
def wParc : Parcellation :=
  ⟨"myatlas",
   [("lh_gcs", "atlas/lh.myatlas.gcs"),
    ("rh_gcs", "atlas/rh.myatlas.gcs"),
    ("subcortex_gcs", "atlas/myatlas.gca"),
    ("lut", "atlas/myatlas.lut")]⟩

/-- The `MRIsCALabel` input assignment of the docstring example
(preprocess.py lines 105-115). -/
def caLabelDocInputs : MRIsCALabelInputs :=
  { subject_id := "test"
    hemisphere := "lh"
    canonsurf := "lh.pial"
    classifier := "im1.nii"
    smoothwm := some "lh.pial"
    curv := some "lh.pial"
    sulc := some "lh.pial"
    out_file := Option.none
    label := Option.none
    aseg := Option.none
    seed := Option.none
    copy_inputs := false
    subjects_dir := ["subjects"] }

/-- A concrete `MRIsCALabel` input assignment with `copy_inputs` set, for
witnesses. -/
def wCopyInputs : MRIsCALabelInputs :=
  { subject_id := "sub-01"
    hemisphere := "rh"
    canonsurf := "subjects/sub-01/surf/rh.sphere.reg"
    classifier := "atlas/rh.myatlas.gcs"
    smoothwm := some "subjects/sub-01/surf/rh.smoothwm"
    curv := some "subjects/sub-01/surf/rh.curv"
    sulc := some "subjects/sub-01/surf/rh.sulc"
    out_file := Option.none
    label := Option.none
    aseg := Option.none
    seed := some 42
    copy_inputs := true
    subjects_dir := ["subjects"] }

/-- The `MRIsAnatomicalStats` input assignment of the docstring example
(preprocess.py lines 237-244). -/
def anatStatsDocInputs : MRIsAnatomicalStatsInputs :=
  { subject_id := "test"
    hemisphere := "lh"
    mgz := Option.none
    cortex := "lh.cortex.label"
    annot := "lh.aparc.annot"
    tabulr_output := true
    out_file := Option.none
    subjects_dir := ["subjects"] }

/-- The `MRISegStats` input assignment of the docstring example
(preprocess.py lines 321-327). -/
def segStatsDocInputs : MRISegStatsInputs :=
  { segmentation := "aseg.mgz"
    ctab := "FreeSurferColorLUT.txt"
    excludeid := Option.none
    out_file := "aseg.stats"
    pvol := Option.none
    subjects_dir := ["subjects"] }

/-! ## Dictionary lemmas -/

theorem dictSet_lookup_self (d : List (String × α)) (k : String) (v : α) :
    (dictSet d k v).lookup k = some v := by
  induction d with
  | nil => simp [dictSet, List.lookup]
  | cons hd tl ih =>
    obtain ⟨a, b⟩ := hd
    by_cases h : a = k
    · simp [dictSet, h, List.lookup]
    · simp [dictSet, List.lookup, beq_eq_false_iff_ne.mpr h,
        beq_eq_false_iff_ne.mpr (Ne.symm h), ih]

theorem dictSet_lookup_ne (d : List (String × α)) (k k' : String) (v : α)
    (h : k' ≠ k) : (dictSet d k v).lookup k' = d.lookup k' := by
  induction d with
  | nil => simp [dictSet, List.lookup, beq_eq_false_iff_ne.mpr h]
  | cons hd tl ih =>
    obtain ⟨a, b⟩ := hd
    by_cases hak : a = k
    · subst hak
      simp [dictSet, List.lookup, beq_eq_false_iff_ne.mpr h]
    · simp [dictSet, List.lookup, beq_eq_false_iff_ne.mpr hak]
      by_cases hka : k' = a
      · simp [List.lookup, hka]
      · simp [List.lookup, beq_eq_false_iff_ne.mpr hka, ih]

theorem mem_dictSet {d : List (String × α)} {k : String} {v : α}
    {e : String × α} (h : e ∈ dictSet d k v) : e = (k, v) ∨ e ∈ d := by
  induction d with
  | nil => simpa [dictSet] using h
  | cons hd tl ih =>
    obtain ⟨a, b⟩ := hd
    by_cases hak : a = k
    · simp [dictSet, hak] at h
      rcases h with h | h
      · exact Or.inl (by simp [h])
      · exact Or.inr (List.mem_cons_of_mem _ h)
    · simp [dictSet, beq_eq_false_iff_ne.mpr hak] at h
      rcases h with h | h
      · exact Or.inr (by simp [h])
      · rcases ih h with h' | h'
        · exact Or.inl h'
        · exact Or.inr (List.mem_cons_of_mem _ h')

theorem dictSet_eq_append (d : List (String × α)) (k : String) (v : α)
    (h : ∀ e ∈ d, e.1 ≠ k) : dictSet d k v = d ++ [(k, v)] := by
  induction d with
  | nil => rfl
  | cons hd tl ih =>
    obtain ⟨a, b⟩ := hd
    have ha : a ≠ k := h (a, b) (by simp)
    simp only [dictSet, beq_eq_false_iff_ne.mpr ha, Bool.false_eq_true,
      if_false, List.cons_append, List.cons.injEq, true_and]
    exact ih (fun e he => h e (List.mem_cons_of_mem _ he))

theorem dictSet_append_singleton (d : List (String × α)) (k : String)
    (v w : α) (h : ∀ e ∈ d, e.1 ≠ k) :
    dictSet (d ++ [(k, v)]) k w = d ++ [(k, w)] := by
  induction d with
  | nil => simp [dictSet]
  | cons hd tl ih =>
    obtain ⟨a, b⟩ := hd
    have ha : a ≠ k := h (a, b) (by simp)
    simp only [List.cons_append, dictSet, beq_eq_false_iff_ne.mpr ha,
      Bool.false_eq_true, if_false, List.cons.injEq, true_and]
    exact ih (fun e he => h e (List.mem_cons_of_mem _ he))

theorem dictSetInner_lookup_ne (d : List (String × PyValue))
    (k inner k' : String) (v : PyValue) (h : k' ≠ k) :
    (dictSetInner d k inner v).lookup k' = d.lookup k' := by
  unfold dictSetInner
  cases hd : d.lookup k with
  | none => rfl
  | some val =>
    cases val with
    | none => rfl
    | path p => rfl
    | dict entries => exact dictSet_lookup_ne _ _ _ _ h

/-! ## Characterization of `collect_outputs` -/

theorem collectStep_eq (glob : String → List FsPath)
    (acc : List (String × PyValue)) (kv : String × String)
    (h : ∀ e ∈ acc, e.1 ≠ kv.1) :
    collectStep glob acc kv = acc ++ [(kv.1, collectValue glob kv.2)] := by
  have h1 : dictSet acc kv.1 PyValue.none = acc ++ [(kv.1, PyValue.none)] :=
    dictSet_eq_append _ _ _ h
  by_cases hl : (glob kv.2).length = 1
  · simp [collectStep, collectValue, hl, h1, dictSet_append_singleton _ _ _ _ h]
  · by_cases hg : (glob kv.2).length > 1
    · simp [collectStep, collectValue, hl, hg, h1,
        dictSet_append_singleton _ _ _ _ h]
    · simp [collectStep, collectValue, hl, hg, h1]

theorem collectOutputs_go (glob : String → List FsPath) :
    ∀ (spec : List (String × String)) (acc : List (String × PyValue)),
      (∀ kv ∈ spec, ∀ e ∈ acc, e.1 ≠ kv.1) →
      (spec.map Prod.fst).Nodup →
      spec.foldl (collectStep glob) acc =
        acc ++ spec.map (fun kv => (kv.1, collectValue glob kv.2)) := by
  intro spec
  induction spec with
  | nil => intro acc _ _; simp
  | cons kv tl ih =>
    intro acc h hnd
    rw [List.foldl_cons, collectStep_eq glob acc kv (fun e he => h kv (by simp) e he)]
    rw [ih (acc ++ [(kv.1, collectValue glob kv.2)]) ?_ ?_]
    · simp
    · intro kv' hkv' e he
      rcases List.mem_append.1 he with he | he
      · exact h kv' (List.mem_cons_of_mem _ hkv') e he
      · simp only [List.mem_singleton] at he
        subst he
        intro hcontra
        have : kv.1 ∈ tl.map Prod.fst := List.mem_map.mpr ⟨kv', hkv', hcontra.symm⟩
        exact (List.nodup_cons.mp hnd).1 this
    · exact (List.nodup_cons.mp hnd).2

theorem collectOutputs_eq_map (glob : String → List FsPath)
    (spec : List (String × String)) (hnd : (spec.map Prod.fst).Nodup) :
    collectOutputs glob spec =
      spec.map (fun kv => (kv.1, collectValue glob kv.2)) := by
  have := collectOutputs_go glob spec [] (by simp) hnd
  simpa [collectOutputs] using this

theorem lookup_map_collectValue (glob : String → List FsPath) :
    ∀ (spec : List (String × String)), (spec.map Prod.fst).Nodup →
      ∀ k pattern, (k, pattern) ∈ spec →
      (spec.map (fun kv => (kv.1, collectValue glob kv.2))).lookup k =
        some (collectValue glob pattern) := by
  intro spec
  induction spec with
  | nil => intro _ k pattern hmem; cases hmem
  | cons hd tl ih =>
    obtain ⟨a, q⟩ := hd
    intro hnd k pattern hmem
    by_cases hka : k = a
    · subst hka
      rcases List.mem_cons.1 hmem with he | he
      · obtain ⟨rfl, rfl⟩ := Prod.mk.injEq .. ▸ And.intro (congrArg Prod.fst he) (congrArg Prod.snd he)
        simp [List.lookup]
      · exfalso
        have : k ∈ tl.map Prod.fst := List.mem_map.mpr ⟨(k, pattern), he, rfl⟩
        exact (List.nodup_cons.mp hnd).1 this
    · rcases List.mem_cons.1 hmem with he | he
      · exact absurd (congrArg Prod.fst he) hka
      · simp only [List.map_cons, List.lookup, beq_eq_false_iff_ne.mpr hka]
        exact ih (List.nodup_cons.mp hnd).2 k pattern he

theorem collectOutputs_lookup (glob : String → List FsPath)
    (spec : List (String × String)) (hnd : (spec.map Prod.fst).Nodup)
    (k pattern : String) (hmem : (k, pattern) ∈ spec) :
    (collectOutputs glob spec).lookup k = some (collectValue glob pattern) := by
  rw [collectOutputs_eq_map glob spec hnd]
  exact lookup_map_collectValue glob spec hnd k pattern hmem

theorem collectHemis_shape (results : List FsPath) :
    ∀ e ∈ collectHemis results,
      (e.1 = "lh" ∨ e.1 = "rh") ∧
      ∃ p, e.2 = PyValue.path p ∧ p ∈ results := by
  suffices h : ∀ (S : List FsPath) (rs : List FsPath), (∀ r ∈ rs, r ∈ S) →
      ∀ (acc : List (String × PyValue)),
      (∀ e ∈ acc, (e.1 = "lh" ∨ e.1 = "rh") ∧
        ∃ p, e.2 = PyValue.path p ∧ p ∈ S) →
      ∀ e ∈ rs.foldl collectHemisStep acc,
        (e.1 = "lh" ∨ e.1 = "rh") ∧ ∃ p, e.2 = PyValue.path p ∧ p ∈ S by
    exact h results results (fun r hr => hr) [] (by simp)
  intro S rs
  induction rs with
  | nil => intro _ acc hacc e he; exact hacc e he
  | cons r rs ih =>
    intro hrs acc hacc e he
    rw [List.foldl_cons] at he
    refine ih (fun x hx => hrs x (List.mem_cons_of_mem _ hx)) _ ?_ e he
    intro e' he'
    unfold collectHemisStep at he'
    by_cases hlh : strStartsWith (pathName r) "lh"
    · rw [if_pos hlh] at he'
      rcases mem_dictSet he' with h' | h'
      · subst h'
        exact ⟨Or.inl rfl, r, rfl, hrs r (by simp)⟩
      · exact hacc e' h'
    · rw [if_neg hlh] at he'
      by_cases hrh : strStartsWith (pathName r) "rh"
      · rw [if_pos hrh] at he'
        rcases mem_dictSet he' with h' | h'
        · subst h'
          exact ⟨Or.inr rfl, r, rfl, hrs r (by simp)⟩
        · exact hacc e' h'
      · rw [if_neg hrh] at he'
        exact hacc e' he'

theorem shapeMatched_collectValue (glob : String → List FsPath)
    (pattern : String) :
    shapeMatched (glob pattern) (collectValue glob pattern) := by
  by_cases h1 : (glob pattern).length = 1
  · obtain ⟨p, hp⟩ := List.length_eq_one.mp h1
    simp [collectValue, h1, shapeMatched, hp]
  · by_cases h2 : (glob pattern).length > 1
    · simp only [collectValue, h1, if_false, h2, if_true]
      exact collectHemis_shape (glob pattern)
    · have h0 : (glob pattern).length = 0 := by omega
      simp [collectValue, h1, h2, shapeMatched, List.length_eq_zero.mp h0]

/-- C1: for every key in the output spec, the value stored by
`Layout.collect_outputs` is either a path that the glob matched under
the subject directory, a per-hemisphere map (keys `"lh"`/`"rh"` only) of
matched paths, or `None` recording that nothing matched; no other value
shape occurs. -/
theorem collect_outputs_shape_invariant (glob : String → List FsPath)
    (spec : List (String × String)) (hnd : (spec.map Prod.fst).Nodup)
    (k pattern : String) (hmem : (k, pattern) ∈ spec) :
    (collectOutputs glob spec).lookup k = some (collectValue glob pattern) ∧
    shapeMatched (glob pattern) (collectValue glob pattern) :=
  ⟨collectOutputs_lookup glob spec hnd k pattern hmem,
   shapeMatched_collectValue glob pattern⟩

/-- C1 witness: the shape invariant at a concrete glob and output
spec. -/
theorem collect_outputs_shape_invariant_witness :
    ((wSpec.map Prod.fst).Nodup ∧ ("surfreg", "surf/*h.sphere.reg") ∈ wSpec) ∧
    ((collectOutputs wGlob wSpec).lookup "surfreg" =
        some (collectValue wGlob "surf/*h.sphere.reg") ∧
      shapeMatched (wGlob "surf/*h.sphere.reg")
        (collectValue wGlob "surf/*h.sphere.reg")) :=
  ⟨⟨by decide, by decide⟩,
   collect_outputs_shape_invariant wGlob wSpec (by decide) "surfreg"
     "surf/*h.sphere.reg" (by decide)⟩

/-! ## Hemisphere disambiguation (C2) -/

theorem collectHemis_lookup_lh (results : List FsPath) :
    (collectHemis results).lookup "lh" =
      ((results.filter (fun r => strStartsWith (pathName r) "lh")).getLast?).map
        PyValue.path := by
  induction results using List.reverseRecOn with
  | nil => rfl
  | append_singleton rs r ih =>
    show ((rs ++ [r]).foldl collectHemisStep []).lookup "lh" = _
    rw [List.foldl_append]
    show (collectHemisStep (collectHemis rs) r).lookup "lh" = _
    unfold collectHemisStep
    by_cases hlh : strStartsWith (pathName r) "lh"
    · rw [if_pos hlh, dictSet_lookup_self, List.filter_append]
      simp [hlh, List.getLast?_concat]
    · rw [if_neg hlh, List.filter_append]
      have hfilter :
          (List.filter (fun r => strStartsWith (pathName r) "lh") [r]) = [] := by
        simp [hlh]
      rw [hfilter, List.append_nil]
      by_cases hrh : strStartsWith (pathName r) "rh"
      · rw [if_pos hrh, dictSet_lookup_ne _ _ _ _ (by decide)]
        exact ih
      · rw [if_neg hrh]
        exact ih

theorem collectHemis_lookup_rh (results : List FsPath) :
    (collectHemis results).lookup "rh" =
      ((results.filter (fun r =>
          !strStartsWith (pathName r) "lh" && strStartsWith (pathName r) "rh")).getLast?).map
        PyValue.path := by
  induction results using List.reverseRecOn with
  | nil => rfl
  | append_singleton rs r ih =>
    show ((rs ++ [r]).foldl collectHemisStep []).lookup "rh" = _
    rw [List.foldl_append]
    show (collectHemisStep (collectHemis rs) r).lookup "rh" = _
    unfold collectHemisStep
    rw [List.filter_append]
    by_cases hlh : strStartsWith (pathName r) "lh"
    · rw [if_pos hlh, dictSet_lookup_ne _ _ _ _ (by decide)]
      have hfilter : (List.filter (fun r =>
          !strStartsWith (pathName r) "lh" && strStartsWith (pathName r) "rh") [r]) = [] := by
        simp [hlh]
      rw [hfilter, List.append_nil]
      exact ih
    · by_cases hrh : strStartsWith (pathName r) "rh"
      · rw [if_neg hlh, if_pos hrh, dictSet_lookup_self]
        have hfilter : (List.filter (fun r =>
            !strStartsWith (pathName r) "lh" && strStartsWith (pathName r) "rh") [r]) = [r] := by
          simp [hlh, hrh]
        rw [hfilter, List.getLast?_concat]
        rfl
      · rw [if_neg hlh, if_neg hrh]
        have hfilter : (List.filter (fun r =>
            !strStartsWith (pathName r) "lh" && strStartsWith (pathName r) "rh") [r]) = [] := by
          simp [hlh, hrh]
        rw [hfilter, List.append_nil]
        exact ih

/-- C2 counterexample: when a pattern matches two files that both start
with `lh`, the later match overwrites the earlier one, so a matched
`lh`-prefixed file need not be the value recorded under key `"lh"` —
refuting the claim's "recorded under key lh exactly when its filename
starts with lh" at this input. -/
theorem hemisphere_prefix_recording_counterexample :
    ¬ (∀ r ∈ cGlob "label/lh*.annot",
        strStartsWith (pathName r) "lh" = true →
        ∃ entries,
          (collectOutputs cGlob [("annotation", "label/lh*.annot")]).lookup
              "annotation" = some (PyValue.dict entries) ∧
          entries.lookup "lh" = some (PyValue.path r)) := by
  intro h
  obtain ⟨entries, he1, he2⟩ :=
    h ["label", "lh.aparc.annot"] (by decide) (by decide)
  have hv : (collectOutputs cGlob [("annotation", "label/lh*.annot")]).lookup
      "annotation" =
      some (PyValue.dict [("lh", PyValue.path ["label", "lh.extra.annot"])]) := rfl
  rw [hv] at he1
  injection he1 with he1
  injection he1 with he1
  rw [← he1] at he2
  have hl : ([("lh", PyValue.path ["label", "lh.extra.annot"])].lookup "lh") =
      some (PyValue.path ["label", "lh.extra.annot"]) := rfl
  rw [hl] at he2
  injection he2 with he2
  injection he2 with he2
  exact absurd he2 (by decide)

/-- C2 amended: when a pattern matches more than one file,
`collect_outputs` stores a map whose `"lh"` entry is the LAST matched
file (in glob order) whose filename starts with `lh`, and whose `"rh"`
entry is the last matched file whose filename starts with `rh` (and not
with `lh`); each key is present exactly when such a file exists.  When
the pattern matches exactly one file, that path is stored directly. -/
theorem collect_outputs_hemisphere_map (glob : String → List FsPath)
    (spec : List (String × String)) (hnd : (spec.map Prod.fst).Nodup)
    (k pattern : String) (hmem : (k, pattern) ∈ spec) :
    (1 < (glob pattern).length →
      (collectOutputs glob spec).lookup k =
        some (PyValue.dict (collectHemis (glob pattern))) ∧
      (collectHemis (glob pattern)).lookup "lh" =
        (((glob pattern).filter
            (fun r => strStartsWith (pathName r) "lh")).getLast?).map PyValue.path ∧
      (collectHemis (glob pattern)).lookup "rh" =
        (((glob pattern).filter (fun r =>
            !strStartsWith (pathName r) "lh" &&
              strStartsWith (pathName r) "rh")).getLast?).map PyValue.path) ∧
    ((glob pattern).length = 1 →
      (collectOutputs glob spec).lookup k =
        some (PyValue.path ((glob pattern).headD []))) := by
  have hlk := collectOutputs_lookup glob spec hnd k pattern hmem
  constructor
  · intro hgt
    have hne : (glob pattern).length ≠ 1 := by omega
    refine ⟨?_, collectHemis_lookup_lh _, collectHemis_lookup_rh _⟩
    rw [hlk]
    simp [collectValue, hne, hgt]
  · intro heq
    rw [hlk]
    simp [collectValue, heq]

/-- C2 witness: the amended characterization at a concrete glob with one
`lh`- and one `rh`-prefixed match, and at a single-match pattern. -/
theorem collect_outputs_hemisphere_map_witness :
    ((wSpec.map Prod.fst).Nodup ∧ ("surfreg", "surf/*h.sphere.reg") ∈ wSpec ∧
      1 < (wGlob "surf/*h.sphere.reg").length) ∧
    (collectOutputs wGlob wSpec).lookup "surfreg" =
      some (PyValue.dict (collectHemis (wGlob "surf/*h.sphere.reg"))) ∧
    (collectHemis (wGlob "surf/*h.sphere.reg")).lookup "lh" =
      (((wGlob "surf/*h.sphere.reg").filter
          (fun r => strStartsWith (pathName r) "lh")).getLast?).map PyValue.path :=
  ⟨⟨by decide, by decide, by decide⟩,
   (((collect_outputs_hemisphere_map wGlob wSpec (by decide) "surfreg"
       "surf/*h.sphere.reg" (by decide)).1) (by decide)).1,
   (((collect_outputs_hemisphere_map wGlob wSpec (by decide) "surfreg"
       "surf/*h.sphere.reg" (by decide)).1) (by decide)).2.1⟩

/-! ## Input validation (C3) -/

theorem validateLayoutKeys_error_shape (outputs : List (String × PyValue)) :
    ∀ (keys : List String) (e : RepoError),
      validateLayoutKeys outputs keys = Except.error e →
      ∃ m, e = RepoError.fileNotFoundError m := by
  intro keys
  induction keys with
  | nil => intro e h; cases h
  | cons key ks ih =>
    intro e h
    unfold validateLayoutKeys at h
    by_cases hk : outputsGetIsNone outputs key
    · rw [if_pos hk] at h
      exact ⟨_, (Except.error.injEq .. ▸ h).symm⟩
    · rw [if_neg hk] at h
      exact ih e h

theorem validateParcellationKeys_error_shape (parc : Parcellation) :
    ∀ (keys : List String) (e : RepoError),
      validateParcellationKeys parc keys = Except.error e →
      ∃ m, e = RepoError.fileNotFoundError m := by
  intro keys
  induction keys with
  | nil => intro e h; cases h
  | cons key ks ih =>
    intro e h
    unfold validateParcellationKeys at h
    by_cases hk : parc.hasAttr key
    · rw [if_pos hk] at h
      exact ih e h
    · rw [if_neg hk] at h
      exact ⟨_, (Except.error.injEq .. ▸ h).symm⟩

theorem validateLayoutKeys_ok (outputs : List (String × PyValue)) :
    ∀ (keys : List String), validateLayoutKeys outputs keys = Except.ok () →
      ∀ k ∈ keys, outputsGetIsNone outputs k = false := by
  intro keys
  induction keys with
  | nil => intro _ k hk; cases hk
  | cons key ks ih =>
    intro h k hk
    unfold validateLayoutKeys at h
    by_cases hkey : outputsGetIsNone outputs key
    · rw [if_pos hkey] at h; cases h
    · rw [if_neg hkey] at h
      rcases List.mem_cons.1 hk with rfl | hk'
      · exact Bool.not_eq_true _ ▸ hkey
      · exact ih h k hk'

theorem validateParcellationKeys_ok (parc : Parcellation) :
    ∀ (keys : List String), validateParcellationKeys parc keys = Except.ok () →
      ∀ k ∈ keys, parc.hasAttr k = true := by
  intro keys
  induction keys with
  | nil => intro _ k hk; cases hk
  | cons key ks ih =>
    intro h k hk
    unfold validateParcellationKeys at h
    by_cases hkey : parc.hasAttr key
    · rw [if_pos hkey] at h
      rcases List.mem_cons.1 hk with rfl | hk'
      · exact hkey
      · exact ih h k hk'
    · rw [if_neg hkey] at h; cases h

/-- C3 amended: constructing a `RegisterParcellation` subclass whose
layout misses a required recon-all output (the key is absent or stores
`None`) or whose parcellation misses a required attribute raises
`FileNotFoundError` during construction, before any external tool is
invoked.  (The exclusivity part of the claim is refuted by the
counterexample: `map_to_hemisphere` raises `ValueError` for an invalid
hemisphere, also before delegating to the external binary.) -/
theorem register_parcellation_init_missing_raises
    (reqLayout reqParc : List String) (layout : LayoutState)
    (parc : Parcellation)
    (h : (∃ k ∈ reqLayout, outputsGetIsNone layout.outputs k = true) ∨
         (∃ k ∈ reqParc, parc.hasAttr k = false)) :
    ∃ m, registerParcellationInit reqLayout reqParc layout parc =
      Except.error (RepoError.fileNotFoundError m) := by
  unfold registerParcellationInit validateRequiredInputs
  cases hL : validateLayoutKeys layout.outputs reqLayout with
  | error e =>
    obtain ⟨m, hm⟩ := validateLayoutKeys_error_shape layout.outputs reqLayout e hL
    exact ⟨m, by rw [hm]; rfl⟩
  | ok u =>
    cases u
    cases hP : validateParcellationKeys parc reqParc with
    | error e =>
      obtain ⟨m, hm⟩ := validateParcellationKeys_error_shape parc reqParc e hP
      exact ⟨m, by rw [hm]; rfl⟩
    | ok u' =>
      cases u'
      exfalso
      rcases h with ⟨k, hk, hnone⟩ | ⟨k, hk, hmiss⟩
      · have := validateLayoutKeys_ok layout.outputs reqLayout hL k hk
        rw [hnone] at this; cases this
      · have := validateParcellationKeys_ok parc reqParc hP k hk
        rw [hmiss] at this; cases this

/-- C3 witness: a cortical registration constructed on a layout whose
`"surfreg"` key stores `None` raises `FileNotFoundError`. -/
theorem register_parcellation_init_missing_raises_witness :
    (∃ k ∈ ["cortex_label", "surfreg"],
      outputsGetIsNone [("cortex_label", PyValue.none)] k = true) ∧
    ∃ m, registerParcellationInit ["cortex_label", "surfreg"]
        ["rh_gcs", "lh_gcs", "lut"]
        ⟨["subjects", "sub-01"], "sub-01", [("cortex_label", PyValue.none)]⟩
        wParc =
      Except.error (RepoError.fileNotFoundError m) :=
  ⟨⟨"cortex_label", by decide, by decide⟩,
   register_parcellation_init_missing_raises _ _ _ _
     (Or.inl ⟨"cortex_label", by decide, by decide⟩)⟩

/-- C3 counterexample: required-file errors are not the only errors the
repository raises before delegating to an external binary —
`map_to_hemisphere` raises `ValueError` (not `FileNotFoundError`) on an
invalid hemisphere, before building any path or invoking any tool. -/
theorem pre_delegation_value_error_counterexample :
    mapToHemisphere wLayout wParc 42 (fun _ => false) "both" false =
      Except.error (RepoError.valueError "Invalid hemisphere: both") ∧
    ∀ m, RepoError.valueError "Invalid hemisphere: both" ≠
      RepoError.fileNotFoundError m :=
  ⟨rfl, fun _ h => RepoError.noConfusion h⟩

/-! ## Command lines (C4) -/

/-- C4 counterexample: the produced command lines for `MRISegStats` and
`MRIsAnatomicalStats` at the docstring input assignments are not the
golden strings the claim states (the unpositioned flags are emitted
sorted by trait name, and the name-generated `-f <hemisphere>.aparc.stats`
argument is present). -/
theorem golden_cmdline_counterexample :
    mriSegStatsCmdline segStatsDocInputs ≠
      "mri_segstats --ctab FreeSurferColorLUT.txt --seg aseg.mgz --sum aseg.stats" ∧
    mrisAnatomicalStatsCmdline anatStatsDocInputs ≠
      "mris_anatomical_stats -b -cortex lh.cortex.label -a lh.aparc.annot test lh" :=
  ⟨by decide, by decide⟩

/-- C4 amended: at the docstring input assignments, `MRIsCALabel`
produces `mris_ca_label <subject_id> <hemisphere> <canonsurf>
<classifier> <out_file>` (positions -5..-1) exactly as claimed, while
`MRIsAnatomicalStats` produces its unpositioned flags sorted by trait
name together with the name-generated `-f` output (`-b` is indeed always
present by default), and `MRISegStats` produces `--ctab`, `--sum`,
`--seg` in trait-name order. -/
theorem wrapper_cmdlines :
    mrisCALabelCmdline caLabelDocInputs =
      "mris_ca_label test lh lh.pial im1.nii lh.aparc.annot" ∧
    mrisAnatomicalStatsCmdline anatStatsDocInputs =
      "mris_anatomical_stats -a lh.aparc.annot -cortex lh.cortex.label -f lh.aparc.stats -b test lh" ∧
    mriSegStatsCmdline segStatsDocInputs =
      "mri_segstats --ctab FreeSurferColorLUT.txt --sum aseg.stats --seg aseg.mgz" :=
  ⟨by decide, by decide, by decide⟩

/-! ## Run preambles (C5, C7, C10) -/

theorem isDir_iff_mem (fs : Fs) (p : FsPath) : fs.isDir p = true ↔ p ∈ fs.dirs := by
  simp [Fs.isDir]

theorem self_mem_ancestorPaths (p : FsPath) (hne : p ≠ []) :
    p ∈ ancestorPaths p := by
  unfold ancestorPaths
  have hpos : 0 < p.length := List.length_pos.mpr hne
  refine List.mem_map.mpr ⟨p.length - 1, List.mem_range.mpr (by omega), ?_⟩
  have h1 : p.length - 1 + 1 = p.length := by omega
  rw [h1, List.take_length]

theorem makedirs_ensures (fs : Fs) (p : FsPath) (hne : p ≠ []) :
    p ∈ (if fs.isDir p then fs else makedirs fs p).dirs ∧
    (fs.isDir p = false →
      ∀ q ∈ ancestorPaths p, q ∈ (if fs.isDir p then fs else makedirs fs p).dirs) := by
  by_cases hd : fs.isDir p = true
  · rw [if_pos hd]
    exact ⟨(isDir_iff_mem fs p).mp hd,
      fun hfalse => False.elim (Bool.false_ne_true (hfalse.symm.trans hd))⟩
  · rw [if_neg hd]
    have hmem : ∀ q ∈ ancestorPaths p, q ∈ (makedirs fs p).dirs :=
      fun q hq => List.mem_append_left _ hq
    exact ⟨hmem p (self_mem_ancestorPaths p hne), fun _ => hmem⟩

/-- C5: whenever `MRIsCALabel.run` is invoked with `copy_inputs` set,
`subjects_dir` is set to the current working directory before the
external tool runs, and `canonsurf`, `smoothwm`, `curv` and `sulc` are
passed to `copy2subjdir` with destination folder `surf`, the last three
renamed to `<hemisphere>.smoothwm`, `<hemisphere>.curv` and
`<hemisphere>.sulc`. -/
theorem ca_label_run_copy_inputs {α : Type} (cwd : FsPath) (fs : Fs)
    (i : MRIsCALabelInputs) (superRun : MRIsCALabelInputs → Fs → α)
    (h : i.copy_inputs = true) :
    (mrisCALabelRun cwd fs i superRun).inputs.subjects_dir = cwd ∧
    (mrisCALabelRun cwd fs i superRun).copies =
      [⟨some i.canonsurf, "surf", Option.none⟩,
       ⟨i.smoothwm, "surf", some (i.hemisphere ++ ".smoothwm")⟩,
       ⟨i.curv, "surf", some (i.hemisphere ++ ".curv")⟩,
       ⟨i.sulc, "surf", some (i.hemisphere ++ ".sulc")⟩] := by
  constructor <;> simp [mrisCALabelRun, h]

/-- C5 witness: the copy behaviour at a concrete input assignment with
`copy_inputs` set. -/
theorem ca_label_run_copy_inputs_witness :
    wCopyInputs.copy_inputs = true ∧
    (mrisCALabelRun ["work"] ⟨[]⟩ wCopyInputs (fun _ _ => ())).inputs.subjects_dir = ["work"] ∧
    (mrisCALabelRun ["work"] ⟨[]⟩ wCopyInputs (fun _ _ => ())).copies =
      [⟨some wCopyInputs.canonsurf, "surf", Option.none⟩,
       ⟨wCopyInputs.smoothwm, "surf", some (wCopyInputs.hemisphere ++ ".smoothwm")⟩,
       ⟨wCopyInputs.curv, "surf", some (wCopyInputs.hemisphere ++ ".curv")⟩,
       ⟨wCopyInputs.sulc, "surf", some (wCopyInputs.hemisphere ++ ".sulc")⟩] :=
  ⟨rfl,
   (ca_label_run_copy_inputs ["work"] ⟨[]⟩ wCopyInputs (fun _ _ => ()) rfl).1,
   (ca_label_run_copy_inputs ["work"] ⟨[]⟩ wCopyInputs (fun _ _ => ()) rfl).2⟩

/-- C7: both `run` overrides return the outcome of the base class `run`
unchanged, whatever it is — they neither catch, inspect, nor
reinterpret the external process's exit status or exception (`α` ranges
over every possible outcome type). -/
theorem run_propagates_base_outcome {α : Type} (cwd : FsPath) (fs : Fs)
    (i : MRIsCALabelInputs) (superCA : MRIsCALabelInputs → Fs → α)
    (j : MRIsAnatomicalStatsInputs)
    (superAS : MRIsAnatomicalStatsInputs → Fs → α) :
    (mrisCALabelRun cwd fs i superCA).outcome =
      superCA (mrisCALabelRun cwd fs i superCA).inputs
        (mrisCALabelRun cwd fs i superCA).fs ∧
    (mrisAnatomicalStatsRun fs j superAS).outcome =
      superAS (mrisAnatomicalStatsRun fs j superAS).inputs
        (mrisAnatomicalStatsRun fs j superAS).fs :=
  ⟨rfl, rfl⟩

/-- C10: by the time `MRIsCALabel.run` or `MRIsAnatomicalStats.run`
delegates to the external binary, the directory
`<subjects_dir>/<subject_id>/label` exists, created together with any
missing parent directories when it was absent. -/
theorem label_dir_exists_before_run {α : Type} (cwd : FsPath) (fs : Fs)
    (i : MRIsCALabelInputs) (superCA : MRIsCALabelInputs → Fs → α)
    (j : MRIsAnatomicalStatsInputs)
    (superAS : MRIsAnatomicalStatsInputs → Fs → α) :
    runEnsuresLabelDir (mrisCALabelRun cwd fs i superCA) fs ∧
    statsRunEnsuresLabelDir (mrisAnatomicalStatsRun fs j superAS) fs := by
  constructor
  · exact makedirs_ensures fs
      (labelDirOf (mrisCALabelRun cwd fs i superCA).inputs.subjects_dir
        (mrisCALabelRun cwd fs i superCA).inputs.subject_id)
      (by simp [labelDirOf])
  · exact makedirs_ensures fs
      (labelDirOf j.subjects_dir j.subject_id) (by simp [labelDirOf])

/-- C10 witness: the label-directory precondition at concrete inputs on
an initially empty filesystem. -/
theorem label_dir_exists_before_run_witness :
    runEnsuresLabelDir (mrisCALabelRun ["work"] ⟨[]⟩ wCopyInputs (fun _ _ => ())) ⟨[]⟩ ∧
    statsRunEnsuresLabelDir
      (mrisAnatomicalStatsRun ⟨[]⟩ anatStatsDocInputs (fun _ _ => ())) ⟨[]⟩ :=
  label_dir_exists_before_run ["work"] ⟨[]⟩ wCopyInputs (fun _ _ => ())
    anatStatsDocInputs (fun _ _ => ())

/-! ## Procedure behaviour (C6, C8, C9) -/

/-- C8: `RegisterCorticalParcellation.map_to_hemisphere` raises
`ValueError` for every hemisphere other than `"lh"` and `"rh"`, before
constructing any output path, touching the filesystem, or invoking any
external tool (the error result carries no path and no recorded
call). -/
theorem map_to_hemisphere_invalid_raises (layout : LayoutState)
    (parc : Parcellation) (seed : Int) (ex : FsPath → Bool) (hemi : String)
    (force : Bool) (h1 : hemi ≠ "lh") (h2 : hemi ≠ "rh") :
    mapToHemisphere layout parc seed ex hemi force =
      Except.error (RepoError.valueError ("Invalid hemisphere: " ++ hemi)) := by
  simp [mapToHemisphere, mapToHemisphereGcs, h1, h2, Except.bind]

/-- C8 witness: the `ValueError` at the concrete hemisphere `"xx"`. -/
theorem map_to_hemisphere_invalid_raises_witness :
    (("xx" : String) ≠ "lh" ∧ ("xx" : String) ≠ "rh") ∧
    mapToHemisphere wLayout wParc 7 (fun _ => false) "xx" true =
      Except.error (RepoError.valueError ("Invalid hemisphere: " ++ "xx")) :=
  ⟨⟨by decide, by decide⟩,
   map_to_hemisphere_invalid_raises wLayout wParc 7 (fun _ => false) "xx" true
     (by decide) (by decide)⟩

/-- C9: when the target output file already exists and `force` is
`False`, `map_to_hemisphere` (cortical) and `map_to_subject`
(subcortical) return the precomputed output path without invoking any
external command (the recorded call list is empty, so the filesystem is
left unchanged). -/
theorem skip_when_output_exists (layout : LayoutState) (parc : Parcellation)
    (seed : Int) (ex : FsPath → Bool) (hemi : String)
    (hhemi : hemi = "lh" ∨ hemi = "rh")
    (hc : ex (corticalAnnotPath layout parc hemi) = true)
    (hsc : ex (subcortexSegPath layout parc) = true) :
    mapToHemisphere layout parc seed ex hemi false =
      Except.ok (corticalAnnotPath layout parc hemi, []) ∧
    mapToSubject layout parc ex false = (subcortexSegPath layout parc, []) := by
  constructor
  · rcases hhemi with h | h <;> subst h <;>
      simp [mapToHemisphere, mapToHemisphereGcs, Except.bind, hc]
  · simp [mapToSubject, hsc]

/-- C9 witness: the skip behaviour at a concrete layout where every path
exists. -/
theorem skip_when_output_exists_witness :
    ((("lh" : String) = "lh" ∨ ("lh" : String) = "rh") ∧
      (fun _ => true) (corticalAnnotPath wLayout wParc "lh") = true) ∧
    mapToHemisphere wLayout wParc 42 (fun _ => true) "lh" false =
      Except.ok (corticalAnnotPath wLayout wParc "lh", []) ∧
    mapToSubject wLayout wParc (fun _ => true) false =
      (subcortexSegPath wLayout wParc, []) :=
  ⟨⟨Or.inl rfl, rfl⟩,
   skip_when_output_exists wLayout wParc 42 (fun _ => true) "lh"
     (Or.inl rfl) rfl rfl⟩

/-- C6 counterexample: `RegisterCorticalParcellation.run` modifies the
contents of `Layout.outputs` — at a concrete layout, the entry under
`"cortical_annotation"` differs before and after `run`. -/
theorem run_mutates_outputs_counterexample :
    (corticalRunOutputs wLayout wParc).lookup "cortical_annotation" ≠
      wLayout.outputs.lookup "cortical_annotation" := by
  intro h
  have h2 : ((corticalRunOutputs wLayout wParc).lookup
      "cortical_annotation").isSome = true := rfl
  have h3 : (wLayout.outputs.lookup "cortical_annotation").isSome = false := rfl
  rw [h] at h2
  exact Bool.noConfusion (h3.symm.trans h2)

/-- C6 amended: the `Layout` reads the directory tree only during
construction, and after `__init__` the only mutations of
`Layout.outputs` are the derived entries inserted by
`RegisterCorticalParcellation.run` and
`RegisterSubCorticalParcellation.run`; every key other than the six
derived keys is left unchanged by both `run` methods (which perform no
glob). -/
theorem run_modifies_only_derived_keys (layout : LayoutState)
    (parc : Parcellation) (k : String)
    (hc1 : k ≠ "cortical_annotation") (hc2 : k ≠ "cortical_stats")
    (hc3 : k ≠ "cortical_stats_df")
    (hs1 : k ≠ "subcortex_segmentation") (hs2 : k ≠ "subcortex_stats")
    (hs3 : k ≠ "subcortex_stats_df") :
    (corticalRunOutputs layout parc).lookup k = layout.outputs.lookup k ∧
    (subcorticalRunOutputs layout parc).lookup k = layout.outputs.lookup k := by
  constructor
  · unfold corticalRunOutputs
    rw [List.foldl_cons, List.foldl_cons, List.foldl_nil]
    rw [dictSetInner_lookup_ne _ _ _ _ _ hc3, dictSetInner_lookup_ne _ _ _ _ _ hc2,
      dictSetInner_lookup_ne _ _ _ _ _ hc1, dictSetInner_lookup_ne _ _ _ _ _ hc3,
      dictSetInner_lookup_ne _ _ _ _ _ hc2, dictSetInner_lookup_ne _ _ _ _ _ hc1,
      dictSet_lookup_ne _ _ _ _ hc3, dictSet_lookup_ne _ _ _ _ hc2,
      dictSet_lookup_ne _ _ _ _ hc1]
  · unfold subcorticalRunOutputs
    rw [dictSet_lookup_ne _ _ _ _ hs3, dictSet_lookup_ne _ _ _ _ hs2,
      dictSet_lookup_ne _ _ _ _ hs1, dictSet_lookup_ne _ _ _ _ hs3,
      dictSet_lookup_ne _ _ _ _ hs2, dictSet_lookup_ne _ _ _ _ hs1]

/-- C6 witness: a non-derived key (`"brain"`) is unchanged by both `run`
methods at a concrete layout. -/
theorem run_modifies_only_derived_keys_witness :
    (corticalRunOutputs wLayout wParc).lookup "brain" =
      wLayout.outputs.lookup "brain" ∧
    (subcorticalRunOutputs wLayout wParc).lookup "brain" =
      wLayout.outputs.lookup "brain" :=
  run_modifies_only_derived_keys wLayout wParc "brain" (by decide) (by decide)
    (by decide) (by decide) (by decide) (by decide)

end PySurfParcel
